import Mathlib

/-!
A shallow embedding of the a2a-wrapper-copilot-studio server code:
`src/server/agent_executor.py` (`CopilotStudioAgent`, `GenericAgentExecutor`)
and `src/server/server.py` (`OAuthMiddleware`, `APIKeyAuthMiddleware`).

External collaborators are modelled as oracle parameters: the remote
Copilot Studio call made by `CopilotStudioAgent.invoke` becomes an
`invoke` field of `ProcEnv`, and the jwt signature check of
`OAuthMiddleware.dispatch` becomes a `validate` parameter.  Python-level
exceptions that the source can only observe through its `try/except`
block are modelled as `Option String` fields of `ProcEnv` (the raised
error text, if any step raises).  Everything else follows the Python
source line by line.
-/

namespace A2AWrapper

/-- Task lifecycle states emitted through the a2a `TaskUpdater`. -/
inductive TaskState where
  | submitted
  | working
  | completed
  | failed
deriving DecidableEq

/-- File payload of a `FilePart`: a reference URI (`FileWithUri`) or raw
bytes (`FileWithBytes`, whose payload is a base64 string in a2a). -/
inductive FileContent where
  | withUri (uri : String)
  | withBytes (bytes : String)
deriving DecidableEq

/-- A message part (`part.root` in the source): a `TextPart`, a
`FilePart`, or any other part kind (for example `DataPart`), which
`_convert_parts_to_text` drops with a warning. -/
inductive Part where
  | text (t : String)
  | file (f : FileContent)
  | dataPart (d : String)
deriving DecidableEq

/-- The accumulation loop of `GenericAgentExecutor._convert_parts_to_text`
(src/server/agent_executor.py lines 181-194): text parts contribute their
text, file parts a bracketed placeholder (URI, or byte count via
`len(part.file.bytes)`), and every other part kind is skipped. -/
def convert_parts_loop : List Part → List String
  | [] => []
  | Part.text t :: ps => t :: convert_parts_loop ps
  | Part.file (FileContent.withUri u) :: ps =>
      ("[File: " ++ u ++ "]") :: convert_parts_loop ps
  | Part.file (FileContent.withBytes b) :: ps =>
      ("[File: " ++ toString b.length ++ " bytes]") :: convert_parts_loop ps
  | Part.dataPart _ :: ps => convert_parts_loop ps

/-- `GenericAgentExecutor._convert_parts_to_text` (lines 179-196):
the collected strings joined by a single space. -/
def convert_parts_to_text (parts : List Part) : String :=
  String.intercalate " " (convert_parts_loop parts)

/-- Rendering of one message part, written from the words of claim C7,
to be compared with the source loop `convert_parts_loop`. -/
def renderPartSpec : Part → Option String
  | Part.text t => some t
  | Part.file (FileContent.withUri u) => some ("[File: " ++ u ++ "]")
  | Part.file (FileContent.withBytes b) =>
      some ("[File: " ++ toString b.length ++ " bytes]")
  | Part.dataPart _ => none

/-- Python dict read (`d[k]`, `k in d`): first matching key. -/
def dictGet {α β : Type} [DecidableEq α] : List (α × β) → α → Option β
  | [], _ => none
  | (k, v) :: t, a => if a = k then some v else dictGet t a

/-- Python dict update of an existing key (`d[k] = v` with `k in d`). -/
def dictSet {α β : Type} [DecidableEq α] : List (α × β) → α → β → List (α × β)
  | [], _, _ => []
  | (k, v) :: t, a, w => (if k = a then (a, w) else (k, v)) :: dictSet t a w

/-- `GenericThread` (lines 27-30): a fresh id and an initially empty
message list.  `uuid.uuid4()` is modelled by a `Nat` drawn from the
freshness supply `next_thread_id` of the executor state. -/
structure GenericThread where
  id : Nat
  messages : List String
deriving DecidableEq

/-- `CopilotStudioAgent` (lines 32-37): a dict of threads and the access
token captured by `__init__`.  The token is `Option String` because
`GenericAgentExecutor.execute` passes `None` when no bearer header was
presented. -/
structure CopilotStudioAgent where
  threads : List (Nat × GenericThread)
  access_token : Option String
deriving DecidableEq

/-- The mutable fields of `GenericAgentExecutor.__init__` (lines 102-107),
plus `next_thread_id`, the freshness supply standing in for `uuid4`. -/
structure ExecutorState where
  agent : Option CopilotStudioAgent
  active_threads : List (String × Nat)
  next_thread_id : Nat
deriving DecidableEq

/-- `GenericAgentExecutor._get_or_create_agent` (lines 109-113): create a
`CopilotStudioAgent` from the given token only when none is cached yet,
and return the cached one otherwise. -/
def get_or_create_agent (st : ExecutorState) (tok : Option String) :
    ExecutorState × CopilotStudioAgent :=
  match st.agent with
  | none =>
      let ag : CopilotStudioAgent := { threads := [], access_token := tok }
      ({ st with agent := some ag }, ag)
  | some ag => (st, ag)

/-- `CopilotStudioAgent.create_thread` (lines 39-42): make a new thread
with a fresh id and record it in the agent's thread dict. -/
def create_thread (ag : CopilotStudioAgent) (fresh : Nat) :
    CopilotStudioAgent × GenericThread :=
  let th : GenericThread := { id := fresh, messages := [] }
  ({ ag with threads := (fresh, th) :: ag.threads }, th)

/-- `GenericAgentExecutor._get_or_create_thread` (lines 115-125): if the
context id is unknown, get or create the agent, create a thread, record
its id for the context, and return it (the source returns
`self._active_threads[context_id]`, which is the id just recorded);
otherwise return the recorded id with the state untouched. -/
def get_or_create_thread (st : ExecutorState) (context_id : String)
    (tok : Option String) : ExecutorState × Nat :=
  match dictGet st.active_threads context_id with
  | some tid => (st, tid)
  | none =>
      let p := get_or_create_agent st tok
      let q := create_thread p.2 p.1.next_thread_id
      let st' : ExecutorState :=
        { agent := some q.1
          active_threads := (context_id, q.2.id) :: p.1.active_threads
          next_thread_id := p.1.next_thread_id + 1 }
      (st', q.2.id)

/-- Number of remote threads created so far (size of the agent's thread
dict; zero when no agent exists yet). -/
def threadCount (st : ExecutorState) : Nat :=
  match st.agent with
  | none => 0
  | some ag => ag.threads.length

/-- A sequence of calls to `_get_or_create_thread` for one context id,
one call per listed token.  Each call runs atomically: the Python
critical section between the `context_id not in self._active_threads`
check and the dict assignment contains only awaits of coroutines that
themselves never suspend (`_get_or_create_agent` and `create_thread`
have no internal awaits), so the asyncio event loop cannot interleave
two concurrent calls inside it, and concurrent calls serialize. -/
def get_or_create_thread_calls :
    ExecutorState → String → List (Option String) → ExecutorState × List Nat
  | st, _, [] => (st, [])
  | st, ctx, tok :: toks =>
      let p := get_or_create_thread st ctx tok
      let q := get_or_create_thread_calls p.1 ctx toks
      (q.1, p.2 :: q.2)

/-- One status update pushed through the `TaskUpdater`: the task state
and the text of the attached message, if any. -/
abbrev Update := TaskState × Option String

/-- Oracle for the fallible steps of `_process_request`: a Python
exception raised during text extraction (`convert_exc`), one raised
during session resolution (`thread_exc`), and the outcome of the remote
call `CopilotStudioAgent.invoke(text, access_token)` (lines 78-92),
which either returns the single message-typed reply text or raises. -/
structure ProcEnv where
  convert_exc : Option String
  thread_exc : Option String
  invoke : String → Option String → Except String String

/-- What a raise inside the `try` block of `_process_request` carries to
the `except` clause: the error text, the updates already emitted, the
executor state at the raise (mutations before the raise persist), and
the tokens already passed to the remote `invoke`. -/
structure Raised where
  exc : String
  emitted : List Update
  state : ExecutorState
  invoked : List (Option String)
deriving DecidableEq

/-- The `try` block of `GenericAgentExecutor._process_request`
(lines 135-169), step by step: convert the parts to text, get or create
the agent, get or create the thread, emit a `working` update, run
`CopilotStudioAgent.run_conversation` (lines 44-51: call `invoke` with
the agent's stored token, append the user message and the reply to the
thread's message list, return that whole list), emit one `working`
update per element of the returned list, then `complete` with its last
element (or a fixed notice if it were empty).  `agentNow` re-reads the
agent object from the state after thread creation because the Python
local `agent` aliases `self._agent`, the very object that
`create_thread` mutates in place.  The result also records the tokens
passed to the remote `invoke`. -/
def process_request_body (st : ExecutorState) (parts : List Part)
    (ctx : String) (tok : Option String) (env : ProcEnv) :
    Except Raised (List Update × ExecutorState × List (Option String)) :=
  match env.convert_exc with
  | some e => Except.error ⟨e, [], st, []⟩
  | none =>
    match env.thread_exc with
    | some e => Except.error ⟨e, [], st, []⟩
    | none =>
      let um := convert_parts_to_text parts
      let p := get_or_create_agent st tok
      let q := get_or_create_thread p.1 ctx tok
      let agentNow := q.1.agent.getD p.2
      let u₁ : Update := (TaskState.working, some "Processing your request...")
      match env.invoke um agentNow.access_token with
      | Except.error e =>
          Except.error ⟨e, [u₁], q.1, [agentNow.access_token]⟩
      | Except.ok response =>
        match dictGet agentNow.threads q.2 with
        | none =>
            Except.error ⟨"KeyError: " ++ toString q.2, [u₁], q.1,
              [agentNow.access_token]⟩
        | some th =>
          let responses := th.messages ++ [um, response]
          let ag₂ : CopilotStudioAgent :=
            { agentNow with
                threads := dictSet agentNow.threads q.2 { th with messages := responses } }
          let st₃ : ExecutorState := { q.1 with agent := some ag₂ }
          Except.ok
            (u₁ :: responses.map (fun r => (TaskState.working, some r)) ++
               [(TaskState.completed, some (responses.getLastD "Task completed."))],
             st₃, [agentNow.access_token])

/-- `GenericAgentExecutor._process_request` (lines 127-177): the `try`
block above together with the `except` clause (lines 171-177), which
emits a terminal `failed` update carrying `Error: ` followed by the
error text and returns normally, so no exception leaves the executor. -/
def process_request (st : ExecutorState) (parts : List Part) (ctx : String)
    (tok : Option String) (env : ProcEnv) :
    List Update × ExecutorState × List (Option String) :=
  match process_request_body st parts ctx tok env with
  | Except.ok r => r
  | Except.error r =>
      (r.emitted ++ [(TaskState.failed, some ("Error: " ++ r.exc))],
       r.state, r.invoked)

/-- The agent object on which `_process_request` calls
`run_conversation`: the one read back from the state after the
get-or-create steps (the Python local `agent` aliases `self._agent`). -/
def agent_now (st : ExecutorState) (ctx : String) (tok : Option String) :
    CopilotStudioAgent :=
  (get_or_create_thread (get_or_create_agent st tok).1 ctx tok).1.agent.getD
    (get_or_create_agent st tok).2

/-- The thread id `_process_request` obtains for the request. -/
def thread_id_of (st : ExecutorState) (ctx : String) (tok : Option String) : Nat :=
  (get_or_create_thread (get_or_create_agent st tok).1 ctx tok).2

/-- The token that reaches the remote `invoke` call for one request:
`run_conversation` reads `self.access_token` of that agent (line 46). -/
def invoke_token (st : ExecutorState) (ctx : String) (tok : Option String) :
    Option String :=
  (agent_now st ctx tok).access_token

/-- `GenericAgentExecutor.execute` (lines 198-236): `updater.submit()`
only when `context.current_task` is absent, then `updater.start_work()`,
then `_process_request`. -/
def execute_run (hasCurrentTask : Bool) (st : ExecutorState)
    (parts : List Part) (ctx : String) (tok : Option String) (env : ProcEnv) :
    List Update × ExecutorState × List (Option String) :=
  let r := process_request st parts ctx tok env
  ((if hasCurrentTask then [] else [(TaskState.submitted, (none : Option String))]) ++
     (TaskState.working, (none : Option String)) :: r.1,
   r.2.1, r.2.2)

/-- The sequence of task states emitted by one execution. -/
def emitted_states (hasCurrentTask : Bool) (st : ExecutorState)
    (parts : List Part) (ctx : String) (tok : Option String) (env : ProcEnv) :
    List TaskState :=
  (execute_run hasCurrentTask st parts ctx tok env).1.map Prod.fst

/-- A sequence of requests served for one context, one per listed parts
list, each run through `_process_request`; returns the final state and
the update list of every request in order. -/
def run_requests (ctx : String) (tok : Option String) (env : ProcEnv) :
    ExecutorState → List (List Part) → ExecutorState × List (List Update)
  | st, [] => (st, [])
  | st, parts :: rest =>
      let r := process_request st parts ctx tok env
      let q := run_requests ctx tok env r.2.1 rest
      (q.1, r.1 :: q.2)

/-- The context has a recorded thread whose stored message history holds
exactly `i` user-message/reply pairs (`2 * i` entries): the state of the
registry between requests, since each successful request appends one
such pair. -/
def thread_history_inv (ctx : String) (st : ExecutorState) (i : Nat) : Prop :=
  ∃ ag tid th, st.agent = some ag ∧
    dictGet st.active_threads ctx = some tid ∧
    dictGet ag.threads tid = some th ∧
    th.messages.length = 2 * i

/-! Concrete sample inputs used by witnesses and counterexamples. -/

/-- The executor state right after `__init__`: no agent, no threads. -/
def st0 : ExecutorState := { agent := none, active_threads := [], next_thread_id := 0 }

/-- A state whose agent was already created from a first request that
presented the token `tok0`. -/
def stAgent : ExecutorState :=
  { agent := some { threads := [], access_token := some "tok0" },
    active_threads := [], next_thread_id := 0 }

def parts0 : List Part := [Part.text "hi"]

/-- A remote backend that answers every question with `REPLY`. -/
def env0 : ProcEnv :=
  { convert_exc := none, thread_exc := none,
    invoke := fun _ _ => Except.ok "REPLY" }

/-- An environment where text extraction raises `boom`. -/
def envBoom : ProcEnv :=
  { convert_exc := some "boom", thread_exc := none,
    invoke := fun _ _ => Except.ok "REPLY" }

/-- An environment where the remote invocation raises `net down`. -/
def envInvokeFail : ProcEnv :=
  { convert_exc := none, thread_exc := none,
    invoke := fun _ _ => Except.error "net down" }

/-! The HTTP auth gate of src/server/server.py. -/

/-- An inbound request as the middlewares see it: URL path, method, and
the two headers they read (`Authorization` and `X-API-Key`; Starlette
header lookup yields the value, or `None` when the header is absent). -/
structure Request where
  path : String
  method : String
  authorization : Option String
  x_api_key : Option String
deriving DecidableEq

/-- Outcome of a middleware dispatch: either the request was passed to
`call_next` (so it reaches the business-logic handler), or a structured
JSON response was returned with a status code, an optional `error` body
field, a `message` body field, and an optional `WWW-Authenticate`
header. -/
inductive GateResult where
  | passed
  | rejected (status : Nat) (error_field : Option String) (message : String)
      (www_authenticate : Option String)
deriving DecidableEq

/-- The `WWW-Authenticate` challenge built on lines 69-71 of
src/server/server.py: it names the token issuer through the tenant
authorization URI and the configured client identifier. -/
def oauth_challenge (tenant_id client_id : String) : String :=
  "Bearer realm=\"\", authorization_uri=\"https://login.microsoftonline.com/" ++
    tenant_id ++ "/oauth2/authorize\", client_id=\"" ++ client_id ++ "\""

/-- `OAuthMiddleware.dispatch` (lines 58-102).  The jwt decode of lines
86-88 (header parse, key lookup, signature and audience check) is the
oracle `validate`.  A missing header, an empty header, or one without
the `Bearer ` scheme takes the 401 branch of lines 73-78 (Python tests
`not auth_header or not auth_header.startswith`, and an empty string
never starts with `Bearer `, so the two conditions coincide); a failing
validation takes the 401 branch of line 91, whose body has only a
`message` field but whose headers still carry the challenge. -/
def oauth_dispatch (tenant_id client_id : String)
    (validate : String → Except String Unit) (req : Request) : GateResult :=
  if req.path = "/.well-known/agent-card.json" ∧ req.method = "GET" then
    GateResult.passed
  else
    match req.authorization with
    | none =>
        GateResult.rejected 401 (some "Unauthorized")
          "Bearer token is required in the Authorization header"
          (some (oauth_challenge tenant_id client_id))
    | some h =>
        if h.startsWith "Bearer " then
          match validate ((h.splitOn " ").getD 1 "") with
          | Except.ok _ => GateResult.passed
          | Except.error e =>
              GateResult.rejected 401 none ("Error: " ++ e)
                (some (oauth_challenge tenant_id client_id))
        else
          GateResult.rejected 401 (some "Unauthorized")
            "Bearer token is required in the Authorization header"
            (some (oauth_challenge tenant_id client_id))

/-- `APIKeyAuthMiddleware.dispatch` (lines 111-131).  Python reaches the
401 branch when `provided_key` is falsy, which covers both a missing
header and a header whose value is the empty string. -/
def api_key_dispatch (api_key : String) (req : Request) : GateResult :=
  if req.path = "/.well-known/agent-card.json" ∧ req.method = "GET" then
    GateResult.passed
  else
    match req.x_api_key with
    | none =>
        GateResult.rejected 401 (some "Unauthorized")
          "X-API-Key header is required" none
    | some provided =>
        if provided = "" then
          GateResult.rejected 401 (some "Unauthorized")
            "X-API-Key header is required" none
        else if provided ≠ api_key then
          GateResult.rejected 403 (some "Forbidden") "Invalid API key" none
        else
          GateResult.passed

/-- The configuration-time strategy selection of src/server/server.py
lines 190-199: bearer middleware when the client secret is set, else
the API-key middleware when an API key is set, else no middleware at
all (auth disabled with a warning). -/
inductive AuthMode where
  | bearer (tenant_id client_id : String) (validate : String → Except String Unit)
  | apiKeyMode (api_key : String)
  | disabled

/-- The whole gate: dispatch through the selected middleware; with auth
disabled every request reaches the handler. -/
def gate_dispatch : AuthMode → Request → GateResult
  | AuthMode.bearer t c v, req => oauth_dispatch t c v req
  | AuthMode.apiKeyMode k, req => api_key_dispatch k req
  | AuthMode.disabled, _ => GateResult.passed

/-- The configured credential check of each mode, read off the passing
branches of the two dispatch functions: a validated bearer token, a
non-empty matching API key, or nothing when auth is disabled. -/
def credential_ok : AuthMode → Request → Bool
  | AuthMode.bearer _ _ v, req =>
      match req.authorization with
      | some h =>
          h.startsWith "Bearer " &&
            (match v ((h.splitOn " ").getD 1 "") with
             | Except.ok _ => true
             | Except.error _ => false)
      | none => false
  | AuthMode.apiKeyMode k, req =>
      match req.x_api_key with
      | some provided => decide (provided ≠ "") && decide (provided = k)
      | none => false
  | AuthMode.disabled, _ => true

/-- The capability-discovery request: `GET /.well-known/agent-card.json`
with no headers at all. -/
def cardReq : Request :=
  { path := "/.well-known/agent-card.json", method := "GET",
    authorization := none, x_api_key := none }

def plainReq : Request :=
  { path := "/", method := "POST", authorization := none, x_api_key := none }

/-- A request that supplies an `X-API-Key` header with an empty value. -/
def emptyKeyReq : Request :=
  { path := "/", method := "POST", authorization := none, x_api_key := some "" }

def badKeyReq : Request :=
  { path := "/", method := "POST", authorization := none, x_api_key := some "wrong" }

def goodKeyReq : Request :=
  { path := "/", method := "POST", authorization := none, x_api_key := some "k1" }

/-! Helper lemmas. -/

theorem dictGet_nil {α β : Type} [DecidableEq α] (a : α) :
    dictGet ([] : List (α × β)) a = none := rfl

theorem dictGet_cons {α β : Type} [DecidableEq α] (k : α) (v : β)
    (t : List (α × β)) (a : α) :
    dictGet ((k, v) :: t) a = if a = k then some v else dictGet t a := rfl

theorem convert_parts_loop_eq_filterMap (parts : List Part) :
    convert_parts_loop parts = parts.filterMap renderPartSpec := by
  induction parts with
  | nil => rfl
  | cons p ps ih =>
      cases p with
      | text t => simp [convert_parts_loop, renderPartSpec, ih]
      | file f =>
          cases f with
          | withUri u => simp [convert_parts_loop, renderPartSpec, ih]
          | withBytes b => simp [convert_parts_loop, renderPartSpec, ih]
      | dataPart d => simp [convert_parts_loop, renderPartSpec, ih]

/-- Claim C7: the derived text is the space-separated, order-preserving
join of each text part's text, a `[File: uri]` placeholder for each file
part carrying a reference locator, and a `[File: n bytes]` placeholder
for each file part carrying bytes, with every other part kind dropped;
in particular the parts `[text "hello", file uri "x"]` yield
`hello [File: x]`. -/
theorem C7_convert_parts_to_text :
    (∀ parts : List Part,
       convert_parts_to_text parts =
         String.intercalate " " (parts.filterMap renderPartSpec)) ∧
    convert_parts_to_text [Part.text "hello", Part.file (FileContent.withUri "x")] =
      "hello [File: x]" := by
  constructor
  · intro parts
    rw [convert_parts_to_text, convert_parts_loop_eq_filterMap]
  · rfl

/-- Claim C9: a non-allow-listed request lacking the credential header
gets, in bearer mode, a structured 401 whose `WWW-Authenticate` header
is the challenge naming the tenant authorization URI and the client
identifier, and, in API-key mode, a structured 401 with no
`WWW-Authenticate` header. -/
theorem C9_missing_credential (t c : String) (v : String → Except String Unit)
    (key : String) (req : Request)
    (hall : ¬ (req.path = "/.well-known/agent-card.json" ∧ req.method = "GET")) :
    (req.authorization = none →
       oauth_dispatch t c v req =
         GateResult.rejected 401 (some "Unauthorized")
           "Bearer token is required in the Authorization header"
           (some (oauth_challenge t c))) ∧
    (req.x_api_key = none →
       api_key_dispatch key req =
         GateResult.rejected 401 (some "Unauthorized")
           "X-API-Key header is required" none) := by
  constructor
  · intro hauth
    simp [oauth_dispatch, hall, hauth]
  · intro hkey
    simp [api_key_dispatch, hall, hkey]

/-- Witness for C9 at a concrete request with zero headers. -/
theorem C9_witness :
    oauth_dispatch "tenant1" "client1" (fun _ => Except.ok ()) plainReq =
      GateResult.rejected 401 (some "Unauthorized")
        "Bearer token is required in the Authorization header"
        (some (oauth_challenge "tenant1" "client1")) ∧
    api_key_dispatch "k1" plainReq =
      GateResult.rejected 401 (some "Unauthorized")
        "X-API-Key header is required" none := by
  have h := C9_missing_credential "tenant1" "client1" (fun _ => Except.ok ())
    "k1" plainReq (by decide)
  exact ⟨h.1 rfl, h.2 rfl⟩

/-- Counterexample to claim C10: the request `emptyKeyReq` supplies an
`X-API-Key` header (with the empty string as value), its key differs
from the configured key `k1`, yet the response is the 401
missing-header rejection, not the structured 403 the claim requires:
Python treats the falsy empty header value as an absent header. -/
theorem C10_counterexample :
    emptyKeyReq.x_api_key = some "" ∧
    (some "" : Option String) ≠ some "k1" ∧
    api_key_dispatch "k1" emptyKeyReq =
      GateResult.rejected 401 (some "Unauthorized")
        "X-API-Key header is required" none ∧
    api_key_dispatch "k1" emptyKeyReq ≠
      GateResult.rejected 403 (some "Forbidden") "Invalid API key" none := by
  refine ⟨rfl, by decide, by decide, by decide⟩

/-- Claim C10 as amended: in API-key mode, a non-allow-listed request
supplying a non-empty `X-API-Key` value gets a structured 403 (and
never reaches the handler) when the value differs from the configured
key, and proceeds to the handler when it matches; a request supplying
an empty `X-API-Key` value is treated as lacking the header and gets
the 401 rejection instead. -/
theorem C10_api_key_check (key : String) (req : Request)
    (hall : ¬ (req.path = "/.well-known/agent-card.json" ∧ req.method = "GET")) :
    (∀ k, req.x_api_key = some k → k ≠ "" →
       ((k ≠ key →
           api_key_dispatch key req =
             GateResult.rejected 403 (some "Forbidden") "Invalid API key" none) ∧
        (k = key → api_key_dispatch key req = GateResult.passed))) ∧
    (req.x_api_key = some "" →
       api_key_dispatch key req =
         GateResult.rejected 401 (some "Unauthorized")
           "X-API-Key header is required" none) := by
  constructor
  · intro k hk hne
    constructor
    · intro hdiff
      simp [api_key_dispatch, hall, hk, hne, hdiff]
    · intro heq
      subst heq
      simp [api_key_dispatch, hall, hk, hne]
  · intro hk
    simp [api_key_dispatch, hall, hk]

/-- Witness for the amended C10: a mismatched non-empty key is rejected
with 403 and a matching key proceeds. -/
theorem C10_witness :
    api_key_dispatch "k1" badKeyReq =
      GateResult.rejected 403 (some "Forbidden") "Invalid API key" none ∧
    api_key_dispatch "k1" goodKeyReq = GateResult.passed := by
  constructor
  · exact ((C10_api_key_check "k1" badKeyReq (by decide)).1 "wrong" rfl
      (by decide)).1 (by decide)
  · exact ((C10_api_key_check "k1" goodKeyReq (by decide)).1 "k1" rfl
      (by decide)).2 rfl

/-- Claim C8: in every configured auth mode a GET request to the
capability-discovery path is passed through to the handler with no
credential check, while a request to any other path or with any other
method reaches the handler exactly when the configured credential check
of that mode passes (trivially so when auth is disabled, since then no
middleware is installed). -/
theorem C8_allowlist_and_gate (mode : AuthMode) (req : Request) :
    (req.path = "/.well-known/agent-card.json" → req.method = "GET" →
       gate_dispatch mode req = GateResult.passed) ∧
    (¬ (req.path = "/.well-known/agent-card.json" ∧ req.method = "GET") →
       (gate_dispatch mode req = GateResult.passed ↔
          credential_ok mode req = true)) := by
  cases mode with
  | bearer t c v =>
      constructor
      · intro hp hm
        simp [gate_dispatch, oauth_dispatch, hp, hm]
      · intro hall
        cases hauth : req.authorization with
        | none => simp [gate_dispatch, oauth_dispatch, credential_ok, hall, hauth]
        | some h =>
            by_cases hb : h.startsWith "Bearer "
            · cases hv : v ((h.splitOn " ")[1]?.getD "") with
              | ok u =>
                  simp [gate_dispatch, oauth_dispatch, credential_ok, hall,
                    hauth, hb, hv]
              | error e =>
                  simp [gate_dispatch, oauth_dispatch, credential_ok, hall,
                    hauth, hb, hv]
            · simp [gate_dispatch, oauth_dispatch, credential_ok, hall,
                hauth, hb]
  | apiKeyMode k =>
      constructor
      · intro hp hm
        simp [gate_dispatch, api_key_dispatch, hp, hm]
      · intro hall
        cases hkey : req.x_api_key with
        | none => simp [gate_dispatch, api_key_dispatch, credential_ok, hall, hkey]
        | some provided =>
            by_cases hemp : provided = ""
            · simp [gate_dispatch, api_key_dispatch, credential_ok, hall,
                hkey, hemp]
            · by_cases hmatch : provided = k
              · simp [gate_dispatch, api_key_dispatch, credential_ok, hall,
                  hkey, hemp, hmatch]
              · simp [gate_dispatch, api_key_dispatch, credential_ok, hall,
                  hkey, hemp, hmatch]
  | disabled =>
      constructor
      · intro _ _
        rfl
      · intro _
        simp [gate_dispatch, credential_ok]

/-- Witness for C8: the discovery card is readable with zero headers in
every mode, and a bare POST to the root reaches the handler only in
disabled mode. -/
theorem C8_witness :
    gate_dispatch (AuthMode.apiKeyMode "k1") cardReq = GateResult.passed ∧
    gate_dispatch AuthMode.disabled plainReq = GateResult.passed := by
  constructor
  · exact (C8_allowlist_and_gate (AuthMode.apiKeyMode "k1") cardReq).1 rfl rfl
  · exact ((C8_allowlist_and_gate AuthMode.disabled plainReq).2 (by decide)).mpr rfl

/-! Helper lemmas for the executor model. -/

theorem get_or_create_agent_of_some (st : ExecutorState) (ag : CopilotStudioAgent)
    (h : st.agent = some ag) (tok : Option String) :
    get_or_create_agent st tok = (st, ag) := by
  simp [get_or_create_agent, h]

theorem get_or_create_agent_fields (st : ExecutorState) (tok : Option String) :
    (get_or_create_agent st tok).1.active_threads = st.active_threads ∧
    (get_or_create_agent st tok).1.next_thread_id = st.next_thread_id ∧
    (get_or_create_agent st tok).1.agent = some (get_or_create_agent st tok).2 := by
  cases h : st.agent <;> simp [get_or_create_agent, h]

theorem get_or_create_thread_create (st : ExecutorState) (ctx : String)
    (tok : Option String) (hd : dictGet st.active_threads ctx = none) :
    (get_or_create_thread st ctx tok).2 = st.next_thread_id ∧
    (get_or_create_thread st ctx tok).1.active_threads =
      (ctx, st.next_thread_id) :: st.active_threads ∧
    threadCount (get_or_create_thread st ctx tok).1 = threadCount st + 1 ∧
    ∃ ag', (get_or_create_thread st ctx tok).1.agent = some ag' ∧
      dictGet ag'.threads st.next_thread_id =
        some { id := st.next_thread_id, messages := [] } := by
  cases hag : st.agent with
  | none =>
      simp [get_or_create_thread, hd, get_or_create_agent, hag, create_thread,
        threadCount, dictGet_cons]
  | some ag =>
      simp [get_or_create_thread, hd, get_or_create_agent, hag, create_thread,
        threadCount, dictGet_cons]

theorem get_or_create_thread_token_irrelevant (st : ExecutorState)
    (ag : CopilotStudioAgent) (h : st.agent = some ag) (ctx : String)
    (t₁ t₂ : Option String) :
    get_or_create_thread st ctx t₁ = get_or_create_thread st ctx t₂ := by
  have hga := get_or_create_agent_of_some st ag h
  simp [get_or_create_thread, hga]

theorem thread_preserves_token (st : ExecutorState) (ag : CopilotStudioAgent)
    (h : st.agent = some ag) (ctx : String) (tok : Option String)
    (d : CopilotStudioAgent) :
    ((get_or_create_thread st ctx tok).1.agent.getD d).access_token =
      ag.access_token := by
  cases hd : dictGet st.active_threads ctx with
  | some tid => simp [get_or_create_thread, hd, h]
  | none =>
      simp [get_or_create_thread, hd, get_or_create_agent_of_some st ag h,
        create_thread]

theorem map_fst_workings (l : List String) :
    (l.map (fun r => ((TaskState.working, some r) : Update))).map Prod.fst =
      List.replicate l.length TaskState.working := by
  induction l with
  | nil => rfl
  | cons a t ih => simp [ih, List.replicate_succ]

theorem map_fst_comp_workings (l : List String) :
    l.map (Prod.fst ∘ fun r => ((TaskState.working, some r) : Update)) =
      List.replicate l.length TaskState.working := by
  induction l with
  | nil => rfl
  | cons a t ih => simp [ih, List.replicate_succ]

theorem replicate_shift (n : Nat) (a : TaskState) (l : List TaskState) :
    List.replicate n a ++ a :: l = a :: (List.replicate n a ++ l) := by
  induction n with
  | zero => rfl
  | succ k ih => simp [List.replicate_succ, ih]

theorem getLastD_append_two (l : List String) (a b d : String) :
    (l ++ [a, b]).getLastD d = b := by
  induction l generalizing d with
  | nil => rfl
  | cons x xs ih => rw [List.cons_append, List.getLastD_cons]; exact ih x

theorem get_or_create_thread_known (st : ExecutorState) (ctx : String)
    (tok : Option String) (tid : Nat)
    (hd : dictGet st.active_threads ctx = some tid) :
    get_or_create_thread st ctx tok = (st, tid) := by
  simp [get_or_create_thread, hd]

/-- Once a terminal state is the last element of a sequence whose other
elements are all non-terminal, nothing follows any terminal state in
the sequence. -/
theorem no_step_after_terminal :
    ∀ (pre : List TaskState) (t : TaskState),
      (∀ s ∈ pre, s ≠ TaskState.completed ∧ s ≠ TaskState.failed) →
      ∀ l₁ l₂ s, pre ++ [t] = l₁ ++ s :: l₂ →
        (s = TaskState.completed ∨ s = TaskState.failed) → l₂ = [] := by
  intro pre
  induction pre with
  | nil =>
      intro t _ l₁ l₂ s heq _
      cases l₁ with
      | nil =>
          simp only [List.nil_append] at heq
          injection heq with h1 h2
          exact h2.symm
      | cons a l₁' =>
          simp only [List.nil_append, List.cons_append] at heq
          injection heq with h1 h2
          exact absurd h2.symm (by simp)
  | cons p pre' ih =>
      intro t hpre l₁ l₂ s heq hterm
      cases l₁ with
      | nil =>
          simp only [List.cons_append, List.nil_append] at heq
          injection heq with h1 h2
          have hp := hpre p (List.mem_cons_self p pre')
          rcases hterm with h | h
          · exact absurd (h1.trans h) hp.1
          · exact absurd (h1.trans h) hp.2
      | cons a l₁' =>
          simp only [List.cons_append] at heq
          injection heq with h1 h2
          exact ih t (fun s' hs' => hpre s' (List.mem_cons_of_mem p hs'))
            l₁' l₂ s h2 hterm

/-- The updates emitted by `_process_request` are always some number of
`working` updates followed by a single terminal update. -/
theorem process_request_updates_shape (st : ExecutorState) (parts : List Part)
    (ctx : String) (tok : Option String) (env : ProcEnv) :
    ∃ n t, (t = TaskState.completed ∨ t = TaskState.failed) ∧
      (process_request st parts ctx tok env).1.map Prod.fst =
        List.replicate n TaskState.working ++ [t] := by
  cases hc : env.convert_exc with
  | some e =>
      exact ⟨0, TaskState.failed, Or.inr rfl, by
        simp [process_request, process_request_body, hc]⟩
  | none =>
    cases ht : env.thread_exc with
    | some e =>
        exact ⟨0, TaskState.failed, Or.inr rfl, by
          simp [process_request, process_request_body, hc, ht]⟩
    | none =>
        cases hi : env.invoke (convert_parts_to_text parts)
            (agent_now st ctx tok).access_token with
        | error e =>
            refine ⟨1, TaskState.failed, Or.inr rfl, ?_⟩
            simp only [agent_now] at hi
            simp [process_request, process_request_body, hc, ht, hi]
        | ok response =>
            cases hth : dictGet (agent_now st ctx tok).threads
                (thread_id_of st ctx tok) with
            | none =>
                refine ⟨1, TaskState.failed, Or.inr rfl, ?_⟩
                simp only [agent_now, thread_id_of] at hi hth
                simp [process_request, process_request_body, hc, ht, hi, hth]
            | some th =>
                refine ⟨(th.messages ++ [convert_parts_to_text parts, response]).length + 1,
                  TaskState.completed, Or.inl rfl, ?_⟩
                simp only [agent_now, thread_id_of] at hi hth
                simp [process_request, process_request_body, hc, ht, hi, hth,
                  map_fst_workings, map_fst_comp_workings, replicate_shift,
                  List.replicate_succ]

/-- The tokens passed to the remote `invoke` during one request: none
at all (a step raised before the call) or exactly the stored agent
token. -/
theorem process_request_invoked (st : ExecutorState) (parts : List Part)
    (ctx : String) (tok : Option String) (env : ProcEnv) :
    (process_request st parts ctx tok env).2.2 = [] ∨
    (process_request st parts ctx tok env).2.2 =
      [(agent_now st ctx tok).access_token] := by
  cases hc : env.convert_exc with
  | some e => left; simp [process_request, process_request_body, hc]
  | none =>
    cases ht : env.thread_exc with
    | some e => left; simp [process_request, process_request_body, hc, ht]
    | none =>
        cases hi : env.invoke (convert_parts_to_text parts)
            (agent_now st ctx tok).access_token with
        | error e =>
            right
            simp only [agent_now] at hi
            simp [process_request, process_request_body, hc, ht, hi, agent_now]
        | ok response =>
            cases hth : dictGet (agent_now st ctx tok).threads
                (thread_id_of st ctx tok) with
            | none =>
                right
                simp only [agent_now, thread_id_of] at hi hth
                simp [process_request, process_request_body, hc, ht, hi, hth,
                  agent_now]
            | some th =>
                right
                simp only [agent_now, thread_id_of] at hi hth
                simp [process_request, process_request_body, hc, ht, hi, hth,
                  agent_now]

/-- Claim C1: the executor creates its single `CopilotStudioAgent` from
the token of the first request and caches it, and every later request
invokes the remote backend with that first stored token: once the agent
exists, two runs of the same request that differ only in the presented
token produce identical results, every token handed to the remote
`invoke` is the cached one, and the cached one is the token of the
request that created the agent. -/
theorem C1_first_token_cached (st : ExecutorState) (ag : CopilotStudioAgent)
    (parts : List Part) (ctx : String) (t₁ t₂ : Option String) (env : ProcEnv)
    (h : st.agent = some ag) :
    process_request st parts ctx t₁ env = process_request st parts ctx t₂ env ∧
    (∀ tk ∈ (process_request st parts ctx t₁ env).2.2, tk = ag.access_token) ∧
    (∀ (st₀ : ExecutorState) (t₀ : Option String), st₀.agent = none →
       (get_or_create_agent st₀ t₀).2.access_token = t₀) := by
  have hga : ∀ t, get_or_create_agent st t = (st, ag) :=
    get_or_create_agent_of_some st ag h
  have hgt := get_or_create_thread_token_irrelevant st ag h ctx t₁ t₂
  refine ⟨?_, ?_, ?_⟩
  · simp only [process_request, process_request_body, hga, hgt]
  · intro tk htk
    rcases process_request_invoked st parts ctx t₁ env with hcase | hcase
    · rw [hcase] at htk
      simp at htk
    · rw [hcase] at htk
      simp only [List.mem_singleton] at htk
      rw [htk]
      simp only [agent_now, get_or_create_agent_of_some st ag h]
      exact thread_preserves_token st ag h ctx t₁ ag
  · intro st₀ t₀ h₀
    simp [get_or_create_agent, h₀]

/-- Witness for C1: with the agent already cached from a first request
carrying `tok0`, a later request behaves identically whether it
presents token `A` or token `B`. -/
theorem C1_witness :
    process_request stAgent parts0 "ctx" (some "A") env0 =
      process_request stAgent parts0 "ctx" (some "B") env0 :=
  (C1_first_token_cached stAgent { threads := [], access_token := some "tok0" }
    parts0 "ctx" (some "A") (some "B") env0 rfl).1

/-- Claim C2: for every execution, the emitted state sequence extends to
a word of the shape optional `submitted`, then one or more `working`,
then one terminal state; `submitted` is never emitted when a task
already exists; and nothing (in particular no `working`) follows a
terminal state. -/
theorem C2_task_state_sequence (hasTask : Bool) (st : ExecutorState)
    (parts : List Part) (ctx : String) (tok : Option String) (env : ProcEnv) :
    ∃ k t rest,
      (t = TaskState.completed ∨ t = TaskState.failed) ∧
      emitted_states hasTask st parts ctx tok env ++ rest =
        (if hasTask then [] else [TaskState.submitted]) ++
          TaskState.working :: (List.replicate k TaskState.working ++ [t]) ∧
      (hasTask = true →
        TaskState.submitted ∉ emitted_states hasTask st parts ctx tok env) ∧
      (∀ l₁ l₂ s, emitted_states hasTask st parts ctx tok env = l₁ ++ s :: l₂ →
        (s = TaskState.completed ∨ s = TaskState.failed) → l₂ = []) := by
  obtain ⟨n, t, hterm, hshape⟩ := process_request_updates_shape st parts ctx tok env
  have hseq : emitted_states hasTask st parts ctx tok env =
      (if hasTask then [] else [TaskState.submitted]) ++
        TaskState.working :: (List.replicate n TaskState.working ++ [t]) := by
    cases hasTask <;> simp [emitted_states, execute_run, hshape]
  refine ⟨n, t, [], hterm, by simpa using hseq, ?_, ?_⟩
  · intro hT
    rw [hseq, hT]
    rcases hterm with h | h <;> subst h <;> simp [List.mem_replicate]
  · intro l₁ l₂ s heq hsterm
    rw [hseq] at heq
    have heq' :
        ((if hasTask then [] else [TaskState.submitted]) ++
           TaskState.working :: List.replicate n TaskState.working) ++ [t] =
          l₁ ++ s :: l₂ := by
      simpa using heq
    refine no_step_after_terminal _ t ?_ l₁ l₂ s heq' hsterm
    intro s' hs'
    rcases List.mem_append.mp hs' with hbase | hrest
    · cases hasTask with
      | true => simp at hbase
      | false =>
          simp at hbase
          subst hbase
          exact ⟨by simp, by simp⟩
    · rcases List.mem_cons.mp hrest with hw | hw
      · subst hw
        exact ⟨by simp, by simp⟩
      · rw [(List.mem_replicate.mp hw).2]
        exact ⟨by simp, by simp⟩

/-- Witness for C2 at a concrete fresh request whose remote call
succeeds. -/
theorem C2_witness :
    ∃ k t rest,
      (t = TaskState.completed ∨ t = TaskState.failed) ∧
      emitted_states false st0 parts0 "ctx" none env0 ++ rest =
        (if false then [] else [TaskState.submitted]) ++
          TaskState.working :: (List.replicate k TaskState.working ++ [t]) ∧
      ((false : Bool) = true →
        TaskState.submitted ∉ emitted_states false st0 parts0 "ctx" none env0) ∧
      (∀ l₁ l₂ s, emitted_states false st0 parts0 "ctx" none env0 = l₁ ++ s :: l₂ →
        (s = TaskState.completed ∨ s = TaskState.failed) → l₂ = []) :=
  C2_task_state_sequence false st0 parts0 "ctx" none env0

/-- Claim C3: whenever a processing step raises (the `try` body ends in
an error), the `except` clause of `_process_request` returns normally
(no exception reaches the transport layer: `process_request` is the
total handler of the raised error), the task ends with a terminal
`failed` update whose message is `Error: ` followed by the raised error
text, and each of the three listed steps (text extraction, session
resolution, remote invocation) indeed surfaces as such an error. -/
theorem C3_failure_handling (st : ExecutorState) (parts : List Part)
    (ctx : String) (tok : Option String) (env : ProcEnv) :
    (∀ r, process_request_body st parts ctx tok env = Except.error r →
       process_request st parts ctx tok env =
         (r.emitted ++ [(TaskState.failed, some ("Error: " ++ r.exc))],
          r.state, r.invoked) ∧
       (r.emitted ++ [(TaskState.failed, some ("Error: " ++ r.exc))]).getLast? =
         some (TaskState.failed, some ("Error: " ++ r.exc))) ∧
    (∀ e, env.convert_exc = some e →
       process_request_body st parts ctx tok env = Except.error ⟨e, [], st, []⟩) ∧
    (∀ e, env.convert_exc = none → env.thread_exc = some e →
       process_request_body st parts ctx tok env = Except.error ⟨e, [], st, []⟩) ∧
    (∀ e, env.convert_exc = none → env.thread_exc = none →
       env.invoke (convert_parts_to_text parts) (invoke_token st ctx tok) =
         Except.error e →
       ∃ r, process_request_body st parts ctx tok env = Except.error r ∧
         r.exc = e ∧
         r.emitted = [(TaskState.working, some "Processing your request...")]) := by
  refine ⟨?_, ?_, ?_, ?_⟩
  · intro r hr
    constructor
    · simp [process_request, hr]
    · simp
  · intro e hc
    simp [process_request_body, hc]
  · intro e hc ht
    simp [process_request_body, hc, ht]
  · intro e hc ht hi
    simp only [invoke_token, agent_now] at hi
    simp only [process_request_body, hc, ht, hi]
    exact ⟨_, rfl, rfl, rfl⟩

/-- Witness for C3: a request whose text extraction raises `boom` ends
in `failed` with the error text embedded, with no exception escaping. -/
theorem C3_witness :
    process_request st0 parts0 "c" none envBoom =
      ([(TaskState.failed, some ("Error: " ++ "boom"))], st0, []) := by
  have hbody := (C3_failure_handling st0 parts0 "c" none envBoom).2.1 "boom" rfl
  have h := ((C3_failure_handling st0 parts0 "c" none envBoom).1 _ hbody).1
  simpa using h

theorem dictGet_dictSet_self {α β : Type} [DecidableEq α] (l : List (α × β))
    (a : α) (w v : β) (h : dictGet l a = some v) :
    dictGet (dictSet l a w) a = some w := by
  induction l with
  | nil => simp [dictGet] at h
  | cons p t ih =>
      obtain ⟨k, v'⟩ := p
      by_cases hka : k = a
      · subst hka
        simp only [dictSet]
        rw [dictGet_cons]
        simp
      · have hak : ¬ a = k := fun hh => hka hh.symm
        rw [dictGet_cons, if_neg hak] at h
        simp only [dictSet, if_neg hka]
        rw [dictGet_cons, if_neg hak]
        exact ih h

theorem countP_workings (l : List String) :
    (l.map (fun r => ((TaskState.working, some r) : Update))).countP
      (fun u => u.1 == TaskState.working) = l.length := by
  induction l with
  | nil => rfl
  | cons a t ih => simp [List.countP_cons, ih]

/-- One successful `_process_request` on a context whose thread is
already recorded: the updates after the initial one are one `working`
per entry of the stored history followed by the user message and the
reply, then `completed`; the state stores the grown history and keeps
the registry. -/
theorem history_step (ctx : String) (tok : Option String) (env : ProcEnv)
    (st : ExecutorState) (parts : List Part)
    (ag : CopilotStudioAgent) (tid : Nat) (th : GenericThread)
    (hag : st.agent = some ag) (htid : dictGet st.active_threads ctx = some tid)
    (hth : dictGet ag.threads tid = some th)
    (hconv : env.convert_exc = none) (hthr : env.thread_exc = none)
    (resp : String)
    (hresp : env.invoke (convert_parts_to_text parts) ag.access_token =
      Except.ok resp) :
    (process_request st parts ctx tok env).1.drop 1 =
      (th.messages ++ [convert_parts_to_text parts, resp]).map
        (fun r => (TaskState.working, some r)) ++
      [(TaskState.completed, some resp)] ∧
    (process_request st parts ctx tok env).2.1.agent =
      some { threads := dictSet ag.threads tid
               { id := th.id,
                 messages := th.messages ++ [convert_parts_to_text parts, resp] },
             access_token := ag.access_token } ∧
    (process_request st parts ctx tok env).2.1.active_threads =
      st.active_threads := by
  have hga := get_or_create_agent_of_some st ag hag
  have hgt := get_or_create_thread_known st ctx tok tid htid
  refine ⟨?_, ?_, ?_⟩ <;>
    simp [process_request, process_request_body, hconv, hthr, hga, hgt, hag,
      hresp, hth, getLastD_append_two]

/-- A successful request preserves the history invariant, growing the
stored history by one pair, and emits `2 * (i + 1)` working updates
after the initial one. -/
theorem history_step_inv (ctx : String) (tok : Option String) (env : ProcEnv)
    (hconv : env.convert_exc = none) (hthr : env.thread_exc = none)
    (hok : ∀ s t, ∃ r, env.invoke s t = Except.ok r)
    (st : ExecutorState) (i : Nat) (parts : List Part)
    (hi : thread_history_inv ctx st i) :
    thread_history_inv ctx (process_request st parts ctx tok env).2.1 (i + 1) ∧
    ((process_request st parts ctx tok env).1.drop 1).countP
      (fun u => u.1 == TaskState.working) = 2 * (i + 1) := by
  obtain ⟨ag, tid, th, hag, htid, hth, hlen⟩ := hi
  obtain ⟨resp, hresp⟩ := hok (convert_parts_to_text parts) ag.access_token
  obtain ⟨hdrop, hagent, hactive⟩ :=
    history_step ctx tok env st parts ag tid th hag htid hth hconv hthr resp hresp
  constructor
  · refine ⟨_, tid,
      { id := th.id,
        messages := th.messages ++ [convert_parts_to_text parts, resp] },
      hagent, ?_, ?_, ?_⟩
    · rw [hactive]
      exact htid
    · exact dictGet_dictSet_self ag.threads tid _ th hth
    · simp [hlen]
      omega
  · rw [hdrop, List.countP_append, countP_workings]
    simp [List.countP_cons, hlen]
    omega

/-- The first request for an unknown context creates the thread, leaves
one pair in its history, and emits two working updates after the
initial one. -/
theorem history_create (ctx : String) (tok : Option String) (env : ProcEnv)
    (hconv : env.convert_exc = none) (hthr : env.thread_exc = none)
    (hok : ∀ s t, ∃ r, env.invoke s t = Except.ok r)
    (st : ExecutorState) (parts : List Part)
    (hd : dictGet st.active_threads ctx = none) :
    thread_history_inv ctx (process_request st parts ctx tok env).2.1 1 ∧
    ((process_request st parts ctx tok env).1.drop 1).countP
      (fun u => u.1 == TaskState.working) = 2 := by
  obtain ⟨resp, hresp⟩ := hok (convert_parts_to_text parts)
    (get_or_create_agent st tok).2.access_token
  cases hag : st.agent with
  | none =>
      simp only [get_or_create_agent, hag] at hresp
      constructor
      · refine ⟨⟨[(st.next_thread_id, ⟨st.next_thread_id,
            [convert_parts_to_text parts, resp]⟩)], tok⟩, st.next_thread_id,
          ⟨st.next_thread_id, [convert_parts_to_text parts, resp]⟩,
          ?_, ?_, ?_, ?_⟩ <;>
          simp [process_request, process_request_body, hconv, hthr,
            get_or_create_agent, hag, get_or_create_thread, hd, create_thread,
            dictSet, dictGet_cons, hresp]
      · simp [process_request, process_request_body, hconv, hthr,
          get_or_create_agent, hag, get_or_create_thread, hd, create_thread,
          dictGet_cons, hresp, List.countP_cons]
  | some ag =>
      simp only [get_or_create_agent, hag] at hresp
      constructor
      · refine ⟨⟨(st.next_thread_id, ⟨st.next_thread_id,
            [convert_parts_to_text parts, resp]⟩) ::
              dictSet ag.threads st.next_thread_id
                ⟨st.next_thread_id, [convert_parts_to_text parts, resp]⟩,
            ag.access_token⟩, st.next_thread_id,
          ⟨st.next_thread_id, [convert_parts_to_text parts, resp]⟩,
          ?_, ?_, ?_, ?_⟩ <;>
          simp [process_request, process_request_body, hconv, hthr,
            get_or_create_agent, hag, get_or_create_thread, hd, create_thread,
            dictSet, dictGet_cons, hresp]
      · simp [process_request, process_request_body, hconv, hthr,
          get_or_create_agent, hag, get_or_create_thread, hd, create_thread,
          dictGet_cons, hresp, List.countP_cons]

/-- From a state holding `i` pairs for the context, the request at index
`k` of a successful run emits `2 * (i + k + 1)` working updates after
the initial one. -/
theorem run_requests_counts (ctx : String) (tok : Option String) (env : ProcEnv)
    (hconv : env.convert_exc = none) (hthr : env.thread_exc = none)
    (hok : ∀ s t, ∃ r, env.invoke s t = Except.ok r) :
    ∀ (partsList : List (List Part)) (st : ExecutorState) (i : Nat),
      thread_history_inv ctx st i →
      ∀ k us_k, (run_requests ctx tok env st partsList).2[k]? = some us_k →
        (us_k.drop 1).countP (fun u => u.1 == TaskState.working) =
          2 * (i + k + 1) := by
  intro partsList
  induction partsList with
  | nil =>
      intro st i _ k us_k hk
      simp [run_requests] at hk
  | cons parts rest ih =>
      intro st i hi k us_k hk
      obtain ⟨hinv', hcount⟩ :=
        history_step_inv ctx tok env hconv hthr hok st i parts hi
      cases k with
      | zero =>
          simp only [run_requests] at hk
          simp at hk
          subst hk
          simpa using hcount
      | succ k' =>
          simp only [run_requests] at hk
          simp at hk
          have hrec := ih (process_request st parts ctx tok env).2.1 (i + 1)
            hinv' k' us_k hk
          omega

/-- On a context with no thread yet, all of whose requests succeed, the
request at index `k` (the `k + 1`-st request on the thread) emits
`2 * (k + 1)` working updates after the initial one. -/
theorem run_requests_fresh_counts (ctx : String) (tok : Option String)
    (env : ProcEnv)
    (hconv : env.convert_exc = none) (hthr : env.thread_exc = none)
    (hok : ∀ s t, ∃ r, env.invoke s t = Except.ok r)
    (st : ExecutorState) (hd : dictGet st.active_threads ctx = none) :
    ∀ (partsList : List (List Part)) (k : Nat) (us_k : List Update),
      (run_requests ctx tok env st partsList).2[k]? = some us_k →
      (us_k.drop 1).countP (fun u => u.1 == TaskState.working) = 2 * (k + 1) := by
  intro partsList k us_k hk
  cases partsList with
  | nil => simp [run_requests] at hk
  | cons parts rest =>
      obtain ⟨hinv', hcount⟩ :=
        history_create ctx tok env hconv hthr hok st parts hd
      cases k with
      | zero =>
          simp only [run_requests] at hk
          simp at hk
          subst hk
          simpa using hcount
      | succ k' =>
          simp only [run_requests] at hk
          simp at hk
          have hrec := run_requests_counts ctx tok env hconv hthr hok rest
            (process_request st parts ctx tok env).2.1 1 hinv' k' us_k hk
          omega

/-- Counterexample to claim C6: on a fresh thread, with message parts
`[text "hi"]` and a remote backend that produces exactly one partial
reply (`REPLY`), the code emits two further `working` updates after the
initial `Processing your request...` one — the first carrying the user
message `hi` itself, because `run_conversation` returns the whole
thread message history — instead of exactly one per partial reply. -/
theorem C6_counterexample :
    (process_request st0 parts0 "ctx" (some "T") env0).1 =
      [(TaskState.working, some "Processing your request..."),
       (TaskState.working, some "hi"),
       (TaskState.working, some "REPLY"),
       (TaskState.completed, some "REPLY")] ∧
    ((process_request st0 parts0 "ctx" (some "T") env0).1.drop 1).countP
        (fun u => u.1 == TaskState.working) = 2 ∧
    (2 : Nat) ≠ 1 := by
  refine ⟨by decide, by decide, by decide⟩

/-- Claim C6 as amended: after the initial `working` update, one further
`working` update is emitted per entry of the thread stored message
history after the current exchange is appended — the stored messages of
the thread the request resolves to, in order, then the current user
message, then the single reply the backend returned — each update
carrying that entry text, the final `completed` update carrying the
reply; the number of post-initial `working` updates is the stored
history length plus two, so the request at index `k` of a run on a
fresh context (its `k + 1`-st request) emits `2 * (k + 1)` of them. -/
theorem C6_working_per_history_entry (st : ExecutorState) (parts : List Part)
    (ctx : String) (tok : Option String) (env : ProcEnv)
    (us : List Update) (st' : ExecutorState) (toks : List (Option String))
    (h : process_request_body st parts ctx tok env = Except.ok (us, st', toks)) :
    (∃ resp th,
      dictGet (agent_now st ctx tok).threads (thread_id_of st ctx tok) =
        some th ∧
      toks = [(agent_now st ctx tok).access_token] ∧
      env.invoke (convert_parts_to_text parts)
        (agent_now st ctx tok).access_token = Except.ok resp ∧
      us = (TaskState.working, some "Processing your request...") ::
        ((th.messages ++ [convert_parts_to_text parts, resp]).map
           (fun r => (TaskState.working, some r)) ++
         [(TaskState.completed, some resp)]) ∧
      (us.drop 1).countP (fun u => u.1 == TaskState.working) =
        th.messages.length + 2) ∧
    (∀ (ctx' : String) (tok' : Option String) (env' : ProcEnv),
      env'.convert_exc = none → env'.thread_exc = none →
      (∀ s t, ∃ r, env'.invoke s t = Except.ok r) →
      ∀ (st₀ : ExecutorState), dictGet st₀.active_threads ctx' = none →
        ∀ (partsList : List (List Part)) (k : Nat) (us_k : List Update),
          (run_requests ctx' tok' env' st₀ partsList).2[k]? = some us_k →
          (us_k.drop 1).countP (fun u => u.1 == TaskState.working) =
            2 * (k + 1)) := by
  constructor
  · cases hc : env.convert_exc with
    | some e => simp [process_request_body, hc] at h
    | none =>
      cases ht : env.thread_exc with
      | some e => simp [process_request_body, hc, ht] at h
      | none =>
          simp only [process_request_body, hc, ht] at h
          split at h
          · simp at h
          · rename_i response hinvoke
            split at h
            · simp at h
            · rename_i th hth
              simp only [Except.ok.injEq, Prod.mk.injEq] at h
              obtain ⟨hus, _, htoks⟩ := h
              refine ⟨response, th, ?_, ?_, ?_, ?_, ?_⟩
              · simp only [agent_now, thread_id_of]
                exact hth
              · simp only [agent_now]
                exact htoks.symm
              · simp only [agent_now]
                exact hinvoke
              · rw [← hus, getLastD_append_two]
                simp
              · rw [← hus]
                simp only [List.cons_append, List.drop_succ_cons, List.drop_zero]
                rw [List.countP_append, countP_workings]
                simp [List.countP_cons]
  · intro ctx' tok' env' hconv hthr hok st₀ hd partsList k us_k hk
    exact run_requests_fresh_counts ctx' tok' env' hconv hthr hok st₀ hd
      partsList k us_k hk

/-- Witness for the amended C6: the concrete first request on a fresh
thread, where the stored history is empty and the post-initial workings
carry `hi` then `REPLY`; and a concrete two-request run on one thread,
whose second request (index 1) emits `2 * 2 = 4` post-initial working
updates. -/
theorem C6_witness :
    (∃ resp th,
      dictGet (agent_now st0 "ctx" (some "T")).threads
        (thread_id_of st0 "ctx" (some "T")) = some th ∧
      ([some "T"] : List (Option String)) =
        [(agent_now st0 "ctx" (some "T")).access_token] ∧
      env0.invoke (convert_parts_to_text parts0)
        (agent_now st0 "ctx" (some "T")).access_token = Except.ok resp ∧
      ([(TaskState.working, some "Processing your request..."),
        (TaskState.working, some "hi"),
        (TaskState.working, some "REPLY"),
        (TaskState.completed, some "REPLY")] : List Update) =
        (TaskState.working, some "Processing your request...") ::
          ((th.messages ++ [convert_parts_to_text parts0, resp]).map
             (fun r => (TaskState.working, some r)) ++
           [(TaskState.completed, some resp)]) ∧
      (([(TaskState.working, some "Processing your request..."),
         (TaskState.working, some "hi"),
         (TaskState.working, some "REPLY"),
         (TaskState.completed, some "REPLY")] : List Update).drop 1).countP
        (fun u => u.1 == TaskState.working) = th.messages.length + 2) ∧
    (([(TaskState.working, some "Processing your request..."),
       (TaskState.working, some "hi"),
       (TaskState.working, some "REPLY"),
       (TaskState.working, some "hi"),
       (TaskState.working, some "REPLY"),
       (TaskState.completed, some "REPLY")] : List Update).drop 1).countP
      (fun u => u.1 == TaskState.working) = 2 * (1 + 1) := by
  constructor
  · exact (C6_working_per_history_entry st0 parts0 "ctx" (some "T") env0
      [(TaskState.working, some "Processing your request..."),
       (TaskState.working, some "hi"),
       (TaskState.working, some "REPLY"),
       (TaskState.completed, some "REPLY")]
      ⟨some ⟨[(0, ⟨0, ["hi", "REPLY"]⟩)], some "T"⟩, [("ctx", 0)], 1⟩
      [some "T"] rfl).1
  · exact (C6_working_per_history_entry st0 parts0 "ctx" (some "T") env0
      [(TaskState.working, some "Processing your request..."),
       (TaskState.working, some "hi"),
       (TaskState.working, some "REPLY"),
       (TaskState.completed, some "REPLY")]
      ⟨some ⟨[(0, ⟨0, ["hi", "REPLY"]⟩)], some "T"⟩, [("ctx", 0)], 1⟩
      [some "T"] rfl).2 "c2" (some "T") env0 rfl rfl
      (fun _ _ => ⟨"REPLY", rfl⟩) st0 rfl [parts0, parts0] 1
      [(TaskState.working, some "Processing your request..."),
       (TaskState.working, some "hi"),
       (TaskState.working, some "REPLY"),
       (TaskState.working, some "hi"),
       (TaskState.working, some "REPLY"),
       (TaskState.completed, some "REPLY")] (by decide)

/-- Claim C4: an unknown context id gets a newly created thread whose id
is recorded for that context and returned; a known context id returns
the recorded thread id with the registry untouched; hence two
successive calls with the same context id return the same thread id. -/
theorem C4_thread_registry (st : ExecutorState) (ctx : String)
    (tok : Option String) :
    (dictGet st.active_threads ctx = none →
       (get_or_create_thread st ctx tok).2 = st.next_thread_id ∧
       (get_or_create_thread st ctx tok).1.active_threads =
         (ctx, st.next_thread_id) :: st.active_threads ∧
       ∃ ag', (get_or_create_thread st ctx tok).1.agent = some ag' ∧
         ∃ th, dictGet ag'.threads st.next_thread_id = some th ∧
           th.messages = []) ∧
    (∀ tid, dictGet st.active_threads ctx = some tid →
       get_or_create_thread st ctx tok = (st, tid)) ∧
    (∀ tok', (get_or_create_thread (get_or_create_thread st ctx tok).1 ctx tok').2 =
       (get_or_create_thread st ctx tok).2) := by
  refine ⟨?_, ?_, ?_⟩
  · intro hd
    obtain ⟨h1, h2, _, ag', hag', hth⟩ := get_or_create_thread_create st ctx tok hd
    exact ⟨h1, h2, ag', hag', _, hth, rfl⟩
  · intro tid hd
    exact get_or_create_thread_known st ctx tok tid hd
  · intro tok'
    cases hd : dictGet st.active_threads ctx with
    | some tid =>
        simp [get_or_create_thread_known st ctx tok tid hd,
          get_or_create_thread_known st ctx tok' tid hd]
    | none =>
        obtain ⟨h1, h2, _, _⟩ := get_or_create_thread_create st ctx tok hd
        have hknown : dictGet (get_or_create_thread st ctx tok).1.active_threads ctx =
            some st.next_thread_id := by
          rw [h2]
          simp [dictGet_cons]
        rw [get_or_create_thread_known _ ctx tok' _ hknown]
        exact h1.symm

/-- Witness for C4: the first call for context `c` on a fresh state. -/
theorem C4_witness :
    (get_or_create_thread st0 "c" none).2 = st0.next_thread_id ∧
    (get_or_create_thread st0 "c" none).1.active_threads =
      ("c", st0.next_thread_id) :: st0.active_threads ∧
    ∃ ag', (get_or_create_thread st0 "c" none).1.agent = some ag' ∧
      ∃ th, dictGet ag'.threads st0.next_thread_id = some th ∧
        th.messages = [] :=
  (C4_thread_registry st0 "c" none).1 rfl

theorem calls_with_known_context (ctx : String) (tid : Nat) :
    ∀ (toks : List (Option String)) (st : ExecutorState),
      dictGet st.active_threads ctx = some tid →
      get_or_create_thread_calls st ctx toks = (st, List.replicate toks.length tid) := by
  intro toks
  induction toks with
  | nil => intro st _; rfl
  | cons tok toks ih =>
      intro st h
      simp only [get_or_create_thread_calls,
        get_or_create_thread_known st ctx tok tid h]
      rw [ih st h]
      simp [List.replicate_succ]

/-- Claim C5: any number of calls to the get-or-create operation for one
context id, starting before any thread exists for it, create exactly
one remote thread and all return the same thread id.  The calls are
modelled as running atomically one after the other, which is what the
asyncio runtime does here: the critical section contains no genuine
suspension point (see `get_or_create_thread_calls`), so the event loop
cannot interleave two concurrent calls inside it. -/
theorem C5_single_flight (st : ExecutorState) (ctx : String)
    (tok : Option String) (toks : List (Option String))
    (hd : dictGet st.active_threads ctx = none) :
    threadCount (get_or_create_thread_calls st ctx (tok :: toks)).1 =
      threadCount st + 1 ∧
    (get_or_create_thread_calls st ctx (tok :: toks)).2 =
      List.replicate (tok :: toks).length st.next_thread_id := by
  obtain ⟨h1, h2, hcount, _⟩ := get_or_create_thread_create st ctx tok hd
  have hknown : dictGet (get_or_create_thread st ctx tok).1.active_threads ctx =
      some st.next_thread_id := by
    rw [h2]
    simp [dictGet_cons]
  have hrest := calls_with_known_context ctx st.next_thread_id toks
    (get_or_create_thread st ctx tok).1 hknown
  constructor
  · simp only [get_or_create_thread_calls, hrest]
    exact hcount
  · simp only [get_or_create_thread_calls, hrest]
    simp [List.replicate_succ, h1]

/-- Witness for C5: three successive calls for context `c` on the fresh
state create one thread and all observe thread id 0. -/
theorem C5_witness :
    threadCount (get_or_create_thread_calls st0 "c" [some "a", none]).1 =
      threadCount st0 + 1 ∧
    (get_or_create_thread_calls st0 "c" [some "a", none]).2 =
      List.replicate ([some "a", none] : List (Option String)).length
        st0.next_thread_id :=
  C5_single_flight st0 "c" (some "a") [none] rfl

end A2AWrapper
